import Mathlib

/-!
Verification of the crop-photo analysis pipeline: key rotation (`getNextApiKey`),
the retrying upstream executor (`analyzeWithGemini` / `callGeminiAPI`), response
normalization (`parseGeminiResponse` / `formatAnalysisForStorage`) and schedule
derivation (`calculateNextPhotoDate`).  All definitions are shallow embeddings of
the JavaScript source; JavaScript runtime behaviour (truthiness, number
coercion, thrown `TypeError`s) is made explicit.
-/

namespace CropPipeline

/-- The character `\x7b` (left curly brace), named to keep brace characters out
of literals. -/
def lbrace : Char := Char.ofNat 123

/-- The character `\x7d` (right curly brace). -/
def rbrace : Char := Char.ofNat 125

/-! ## JavaScript numbers

JSON numbers are exact decimals, so finite values are modelled as rationals;
`nan` and the two infinities arise only through JavaScript coercions. -/

/-- A JavaScript number: `NaN`, `Infinity`, `-Infinity` or a finite value. -/
inductive JsNum where
  | nan
  | inf
  | negInf
  | num (q : Rat)
deriving DecidableEq

/-- JavaScript `<` on numbers: any comparison with `NaN` is false. -/
def JsNum.lt : JsNum → JsNum → Bool
  | .nan, _ => false
  | _, .nan => false
  | .negInf, .negInf => false
  | .negInf, _ => true
  | _, .negInf => false
  | .inf, _ => false
  | .num _, .inf => true
  | .num a, .num b => decide (a < b)

/-- JavaScript `<=` on numbers: false whenever `NaN` is involved. -/
def JsNum.le : JsNum → JsNum → Bool
  | .nan, _ => false
  | _, .nan => false
  | a, b => !(JsNum.lt b a)

/-- `Math.min`: `NaN` if either argument is `NaN`, otherwise the smaller. -/
def JsNum.jsMin (a b : JsNum) : JsNum :=
  if a = .nan ∨ b = .nan then .nan else if JsNum.lt a b then a else b

/-- `Math.max`: `NaN` if either argument is `NaN`, otherwise the larger. -/
def JsNum.jsMax (a b : JsNum) : JsNum :=
  if a = .nan ∨ b = .nan then .nan else if JsNum.lt a b then b else a

/-- Negation of a JavaScript number. -/
def JsNum.neg : JsNum → JsNum
  | .nan => .nan
  | .inf => .negInf
  | .negInf => .inf
  | .num q => .num (-q)

/-- JavaScript `+` on numbers (`Infinity + -Infinity` is `NaN`). -/
def JsNum.add : JsNum → JsNum → JsNum
  | .nan, _ => .nan
  | _, .nan => .nan
  | .inf, .negInf => .nan
  | .negInf, .inf => .nan
  | .inf, _ => .inf
  | _, .inf => .inf
  | .negInf, _ => .negInf
  | _, .negInf => .negInf
  | .num a, .num b => .num (a + b)

/-- JavaScript `-` on numbers. -/
def JsNum.sub (a b : JsNum) : JsNum := JsNum.add a (JsNum.neg b)

/-- Truthiness of a number: `0` and `NaN` are falsy. -/
def JsNum.truthy : JsNum → Bool
  | .nan => false
  | .num q => decide (q ≠ 0)
  | _ => true

/-! ## JavaScript values

The values that flow through the pipeline: everything `JSON.parse` can produce,
plus `undefined` (absent properties). -/

/-- A JavaScript value as seen by the pipeline. -/
inductive JsVal where
  | jundefined
  | jnull
  | jbool (b : Bool)
  | jnum (n : JsNum)
  | jstr (s : String)
  | jarr (elems : List JsVal)
  | jobj (fields : List (String × JsVal))

/-- Truthiness of a JavaScript value. -/
def JsVal.truthy : JsVal → Bool
  | .jundefined => false
  | .jnull => false
  | .jbool b => b
  | .jnum n => n.truthy
  | .jstr s => !s.isEmpty
  | .jarr _ => true
  | .jobj _ => true

/-- `a || b`: `a` when truthy, otherwise `b`. -/
def jsOr (a b : JsVal) : JsVal := if a.truthy then a else b

/-- Property read on an object's field list; later duplicate keys win, as after
`JSON.parse`, and an absent key yields `undefined`. -/
def jsGetField (fields : List (String × JsVal)) (k : String) : JsVal :=
  match fields.reverse.find? (fun p => p.1 == k) with
  | some p => p.2
  | none => .jundefined

/-- Property read `v[k]` with JavaScript semantics: reading from `null` or
`undefined` throws a `TypeError`, primitives yield `undefined` for our keys. -/
def jsMember (v : JsVal) (k : String) : Except String JsVal :=
  match v with
  | .jundefined => .error ("TypeError: cannot read properties of undefined (reading " ++ k ++ ")")
  | .jnull => .error ("TypeError: cannot read properties of null (reading " ++ k ++ ")")
  | .jobj fields => .ok (jsGetField fields k)
  | _ => .ok .jundefined

/-! ## Number coercion (`ToNumber`)

`Math.min`/`Math.max` coerce their arguments; the string grammar implemented
here is the `StringNumericLiteral` grammar (trimmed whitespace, empty string is
`0`, optional sign on decimal and `Infinity` forms, unsigned hex/octal/binary
forms, anything else `NaN`). -/

/-- Whitespace trimmed by JavaScript string-to-number coercion (the common
ASCII forms plus no-break space). -/
def isJsWs (c : Char) : Bool :=
  c = ' ' || c = '\t' || c = '\n' || c = '\r' || c = '\x0b' || c = '\x0c' || c = '\xa0'

/-- Trim `isJsWs` characters from both ends of a character list. -/
def trimJsWs (cs : List Char) : List Char :=
  ((cs.dropWhile isJsWs).reverse.dropWhile isJsWs).reverse

/-- Value of a base-10 digit string. -/
def digitsToNat (ds : List Char) : Nat :=
  ds.foldl (fun a c => a * 10 + (c.toNat - 48)) 0

/-- `10^e` as a rational, for integer `e`. -/
def ratPow10 (e : Int) : Rat :=
  if 0 ≤ e then ((10 : Rat) ^ e.toNat) else 1 / ((10 : Rat) ^ (-e).toNat)

/-- Exponent suffix of a decimal literal (`e`/`E`, optional sign, digits);
the whole remainder must be consumed. -/
def parseExpSuffix (base : Rat) (cs : List Char) : Option Rat :=
  match cs with
  | [] => some base
  | e :: r1 =>
    if e = 'e' || e = 'E' then
      let (esgn, r2) : Int × List Char :=
        match r1 with
        | '+' :: r => (1, r)
        | '-' :: r => (-1, r)
        | _ => (1, r1)
      let (expDs, r3) := r2.span Char.isDigit
      if expDs.isEmpty || !r3.isEmpty then none
      else some (base * ratPow10 (esgn * (digitsToNat expDs : Nat)))
    else none

/-- Unsigned decimal literal `digits [. digits] [exp]` or `. digits [exp]`,
consuming the whole input. -/
def parseUnsignedDec (cs : List Char) : Option Rat :=
  let (intDs, r1) := cs.span Char.isDigit
  match r1 with
  | '.' :: r2 =>
    let (fracDs, r3) := r2.span Char.isDigit
    if intDs.isEmpty && fracDs.isEmpty then none
    else
      parseExpSuffix ((digitsToNat (intDs ++ fracDs) : Rat) / (10 : Rat) ^ fracDs.length) r3
  | _ =>
    if intDs.isEmpty then none
    else parseExpSuffix (digitsToNat intDs : Rat) r1

/-- Digit value in base `b`, if valid. -/
def digitValIn (b : Nat) (c : Char) : Option Nat :=
  let v :=
    if c.isDigit then some (c.toNat - 48)
    else if 'a' ≤ c && c ≤ 'f' then some (c.toNat - 87)
    else if 'A' ≤ c && c ≤ 'F' then some (c.toNat - 55)
    else none
  match v with
  | some n => if n < b then some n else none
  | none => none

/-- Unsigned radix literal (after `0x`/`0o`/`0b`); `NaN` when empty or any
digit is invalid. -/
def parseRadixNum (b : Nat) (ds : List Char) : JsNum :=
  if ds.isEmpty then .nan
  else
    let step : Option Nat → Char → Option Nat := fun acc c =>
      match acc, digitValIn b c with
      | some a, some v => some (a * b + v)
      | _, _ => none
    match ds.foldl step (some 0) with
    | some n => .num (n : Rat)
    | none => .nan

/-- Signed decimal or `Infinity` form of the string-to-number grammar. -/
def parseSignedDec (cs : List Char) : JsNum :=
  let (sgn, body) : Rat × List Char :=
    match cs with
    | '-' :: r => (-1, r)
    | '+' :: r => (1, r)
    | _ => (1, cs)
  if body = "Infinity".data then (if sgn < 0 then .negInf else .inf)
  else
    match parseUnsignedDec body with
    | some q => .num (sgn * q)
    | none => .nan

/-- JavaScript `Number(string)`: trimmed, empty is `0`, decimal/`Infinity`
with optional sign, unsigned `0x`/`0o`/`0b`, otherwise `NaN`. -/
def strToNum (s : String) : JsNum :=
  let cs := trimJsWs s.data
  if cs.isEmpty then .num 0
  else
    match cs with
    | '0' :: c :: rest =>
      if c = 'x' || c = 'X' then parseRadixNum 16 rest
      else if c = 'o' || c = 'O' then parseRadixNum 8 rest
      else if c = 'b' || c = 'B' then parseRadixNum 2 rest
      else parseSignedDec cs
    | _ => parseSignedDec cs

/-- `ToNumber` on a JavaScript value.  An array coerces through its
`toString` (comma-join): empty is `0`, a single element coerces through its
own string form, two or more elements contain a comma and are `NaN`. -/
def JsVal.toNumber : JsVal → JsNum
  | .jundefined => .nan
  | .jnull => .num 0
  | .jbool b => .num (if b then 1 else 0)
  | .jnum n => n
  | .jstr s => strToNum s
  | .jobj _ => .nan
  | .jarr [] => .num 0
  | .jarr [.jundefined] => .num 0
  | .jarr [.jnull] => .num 0
  | .jarr [.jbool _] => .nan
  | .jarr [.jobj _] => .nan
  | .jarr [.jnum n] => n
  | .jarr [.jstr s] => strToNum s
  | .jarr [.jarr ys] => JsVal.toNumber (.jarr ys)
  | .jarr (_ :: _ :: _) => .nan

/-! ## KeyPool (`getNextApiKey`, server source)

The module-level state is the filtered `apiKeys` list and the mutable
`rotationCounter`; `process.env.GEMINI_API_KEY` is the legacy credential and
may be absent. -/

/-- Mutable key-pool state: the configured credential list and the rotation
counter. -/
structure KeyPoolState where
  apiKeys : List String
  rotationCounter : Nat
deriving DecidableEq

/-- `ROTATION_INTERVAL = 3`: consecutive calls served per credential. -/
def ROTATION_INTERVAL : Nat := 3

/-- `getNextApiKey()`: with a non-empty pool, select
`apiKeys[floor(rotationCounter / ROTATION_INTERVAL) % apiKeys.length]` and
increment the counter; with an empty pool, return the legacy credential and
leave the state untouched. -/
def getNextApiKey (legacyKey : Option String) (st : KeyPoolState) :
    Option String × KeyPoolState :=
  if st.apiKeys.length > 0 then
    let keyIndex := (st.rotationCounter / ROTATION_INTERVAL) % st.apiKeys.length
    (st.apiKeys[keyIndex]?, { st with rotationCounter := st.rotationCounter + 1 })
  else
    (legacyKey, st)

/-- Iterate `getNextApiKey` `n` times, collecting the selected credentials. -/
def runSelections (legacyKey : Option String) :
    Nat → KeyPoolState → List (Option String) × KeyPoolState
  | 0, st => ([], st)
  | n + 1, st =>
    let (k, st') := getNextApiKey legacyKey st
    let (ks, stFinal) := runSelections legacyKey n st'
    (k :: ks, stFinal)

/-! ## RequestExecutor (`analyzeWithGemini`, `callGeminiAPI`)

The upstream network is abstracted as a map from attempt index to outcome
(`.ok text` for a 2xx envelope with extractable text, `.error cause`
otherwise). -/

/-- Result of a run of the retry loop in `analyzeWithGemini`: how many
attempts executed, the backoff sleeps taken between them, and the final
outcome. -/
structure RetryTrace where
  attempts : Nat
  delays : List Nat
  result : Except String String

/-- Message of the error thrown after the loop in `analyzeWithGemini`. -/
def apiFailMsg (lastErrorMsg : String) : String :=
  "Gemini API failed after 3 attempts: " ++ lastErrorMsg

/-- The `for (let attempt = 0; attempt < 3; attempt++)` loop of
`analyzeWithGemini`: a successful attempt returns its text; a failed attempt
records the error and, before attempts 1 and 2, sleeps `1000 * (attempt + 1)`
milliseconds; exhaustion throws `apiFailMsg` of the last error. -/
def geminiRetryLoop (outcomes : Nat → Except String String) :
    Nat → String → RetryTrace
  | attempt, lastErrorMsg =>
    if _h : attempt < 3 then
      match outcomes attempt with
      | .ok text => ⟨attempt + 1, [], .ok text⟩
      | .error e =>
        let tail := geminiRetryLoop outcomes (attempt + 1) e
        ⟨tail.attempts,
         (if attempt < 2 then [1000 * (attempt + 1)] else []) ++ tail.delays,
         tail.result⟩
    else
      ⟨attempt, [], .error (apiFailMsg lastErrorMsg)⟩
termination_by attempt _ => 3 - attempt

/-- Execution trace of one logical `analyzeWithGemini` call: the credential
embedded in the request URL of each attempt, the backoff delays, the final
outcome, and the key-pool state after the call. -/
structure ExecTrace where
  attempts : Nat
  attemptKeys : List (Option String)
  delays : List Nat
  result : Except String String
  poolAfter : KeyPoolState

/-- `analyzeWithGemini`: the URL — and with it the credential, read from the
legacy `process.env.GEMINI_API_KEY` — is built once, before the retry loop,
so every attempt carries that same credential and the rotation pool is never
consulted. -/
def analyzeWithGeminiRun (legacyKey : Option String) (pool : KeyPoolState)
    (outcomes : Nat → Except String String) : ExecTrace :=
  let urlKey := legacyKey
  let t := geminiRetryLoop outcomes 0 ""
  { attempts := t.attempts
    attemptKeys := List.replicate t.attempts urlKey
    delays := t.delays
    result := t.result
    poolAfter := pool }

/-- `callGeminiAPI` (rotating server variant): builds its URL through
`getNextApiKey()` and performs a single attempt, rethrowing any failure as
`'AI analysis failed'`. -/
def callGeminiAPIRun (legacyKey : Option String) (pool : KeyPoolState)
    (outcome : Except String String) :
    Option String × KeyPoolState × Except String String :=
  let (key, pool') := getNextApiKey legacyKey pool
  (key, pool',
    match outcome with
    | .ok text => .ok text
    | .error _ => .error "AI analysis failed")

/-! ## `JSON.parse`

A recursive-descent parser for the JSON grammar, used by
`parseGeminiResponse`.  Recursion is bounded by an explicit fuel supplied at
the top level; real inputs never exhaust it. -/

/-- JSON whitespace (space, tab, line feed, carriage return). -/
def isJsonWs (c : Char) : Bool :=
  c = ' ' || c = '\t' || c = '\n' || c = '\r'

/-- Drop leading JSON whitespace. -/
def skipJsonWs : List Char → List Char
  | [] => []
  | c :: cs => if isJsonWs c then skipJsonWs cs else c :: cs

/-- Consume an expected literal character sequence. -/
def stripChars : List Char → List Char → Option (List Char)
  | [], cs => some cs
  | p :: ps, c :: cs => if c = p then stripChars ps cs else none
  | _ :: _, [] => none

/-- Single-character escapes of JSON strings. -/
def jsonEscChar (e : Char) : Option Char :=
  if e = '"' then some '"'
  else if e = '\\' then some '\\'
  else if e = '/' then some '/'
  else if e = 'b' then some '\x08'
  else if e = 'f' then some '\x0c'
  else if e = 'n' then some '\n'
  else if e = 'r' then some '\r'
  else if e = 't' then some '\t'
  else none

/-- Body of a JSON string, after the opening quote: returns the decoded
characters and the input after the closing quote.  Unescaped control
characters are rejected, as by `JSON.parse`. -/
def parseJStr (fuel : Nat) (cs : List Char) : Except String (List Char × List Char) :=
  if _h : fuel = 0 then .error "string: out of fuel"
  else
    match cs with
    | [] => .error "unterminated string"
    | c :: rest =>
      if c = '"' then .ok ([], rest)
      else if c = '\\' then
        match rest with
        | [] => .error "unterminated escape"
        | e :: rest2 =>
          match jsonEscChar e with
          | some d => (parseJStr (fuel - 1) rest2).map (fun p => (d :: p.1, p.2))
          | none =>
            if e = 'u' then
              match rest2 with
              | h1 :: h2 :: h3 :: h4 :: rest3 =>
                match digitValIn 16 h1, digitValIn 16 h2, digitValIn 16 h3, digitValIn 16 h4 with
                | some a, some b, some c3, some d =>
                  (parseJStr (fuel - 1) rest3).map
                    (fun p => (Char.ofNat (((a * 16 + b) * 16 + c3) * 16 + d) :: p.1, p.2))
                | _, _, _, _ => .error "invalid unicode escape"
              | _ => .error "invalid unicode escape"
            else .error "invalid escape"
      else if c.toNat < 32 then .error "control character in string"
      else (parseJStr (fuel - 1) rest).map (fun p => (c :: p.1, p.2))
termination_by fuel

/-- Exponent and final value of a JSON number literal. -/
def parseJsonExpPart (sgn : Rat) (intDs fracDs : List Char) (cs : List Char) :
    Except String (Rat × List Char) :=
  let base := sgn * ((digitsToNat (intDs ++ fracDs) : Rat) / (10 : Rat) ^ fracDs.length)
  match cs with
  | e :: r1 =>
    if e = 'e' || e = 'E' then
      let (esgn, r2) : Int × List Char :=
        match r1 with
        | '+' :: r => (1, r)
        | '-' :: r => (-1, r)
        | _ => (1, r1)
      let (expDs, r3) := r2.span Char.isDigit
      if expDs.isEmpty then .error "digits expected in exponent"
      else .ok (base * ratPow10 (esgn * (digitsToNat expDs : Nat)), r3)
    else .ok (base, cs)
  | [] => .ok (base, [])

/-- A JSON number literal: optional minus, integer part without leading
zeros, optional fraction, optional exponent. -/
def parseJsonNumber (cs : List Char) : Except String (Rat × List Char) :=
  let (sgn, r0) : Rat × List Char :=
    match cs with
    | '-' :: r => (-1, r)
    | _ => (1, cs)
  match r0 with
  | [] => .error "number expected"
  | c :: r0tail =>
    if !c.isDigit then .error "number expected"
    else if c = '0' && (match r0tail with | d :: _ => d.isDigit | [] => false) then
      .error "leading zero"
    else
      let (intDs, r1) := if c = '0' then ([c], r0tail) else r0.span Char.isDigit
      match r1 with
      | '.' :: r2 =>
        let (fracDs, r3) := r2.span Char.isDigit
        if fracDs.isEmpty then .error "digits expected after decimal point"
        else parseJsonExpPart sgn intDs fracDs r3
      | _ => parseJsonExpPart sgn intDs [] r1

mutual

/-- A JSON value, dispatching on the first non-whitespace character. -/
def parseJsonValue (fuel : Nat) (cs : List Char) : Except String (JsVal × List Char) :=
  if _h : fuel = 0 then .error "value: out of fuel"
  else
    match skipJsonWs cs with
    | [] => .error "unexpected end of input"
    | c :: rest =>
      if c = lbrace then
        (parseJsonMembers (fuel - 1) rest true []).map (fun p => (.jobj p.1, p.2))
      else if c = '[' then
        (parseJsonElems (fuel - 1) rest true []).map (fun p => (.jarr p.1, p.2))
      else if c = '"' then
        (parseJStr (rest.length + 1) rest).map (fun p => (.jstr ⟨p.1⟩, p.2))
      else if c = 't' then
        match stripChars "rue".data rest with
        | some r => .ok (.jbool true, r)
        | none => .error "invalid literal"
      else if c = 'f' then
        match stripChars "alse".data rest with
        | some r => .ok (.jbool false, r)
        | none => .error "invalid literal"
      else if c = 'n' then
        match stripChars "ull".data rest with
        | some r => .ok (.jnull, r)
        | none => .error "invalid literal"
      else if c = '-' || c.isDigit then
        (parseJsonNumber (c :: rest)).map (fun p => (.jnum (.num p.1), p.2))
      else .error "unexpected character"
termination_by fuel

/-- Members of a JSON object, after the opening brace (`first` is true until
a member has been consumed; only then is a comma-separated continuation
expected). -/
def parseJsonMembers (fuel : Nat) (cs : List Char) (first : Bool)
    (acc : List (String × JsVal)) :
    Except String (List (String × JsVal) × List Char) :=
  if _h : fuel = 0 then .error "object: out of fuel"
  else
    match skipJsonWs cs with
    | [] => .error "unterminated object"
    | c :: rest =>
      if first && c = rbrace then .ok (acc.reverse, rest)
      else if c = '"' then
        match parseJStr (rest.length + 1) rest with
        | .error e => .error e
        | .ok (keyChars, r1) =>
          match skipJsonWs r1 with
          | ':' :: r2 =>
            match parseJsonValue (fuel - 1) r2 with
            | .error e => .error e
            | .ok (v, r3) =>
              match skipJsonWs r3 with
              | ',' :: r4 => parseJsonMembers (fuel - 1) r4 false ((⟨keyChars⟩, v) :: acc)
              | c2 :: r4 =>
                if c2 = rbrace then .ok (((⟨keyChars⟩, v) :: acc).reverse, r4)
                else .error "expected comma or end of object"
              | [] => .error "unterminated object"
          | _ => .error "expected colon"
      else .error "expected string key"
termination_by fuel

/-- Elements of a JSON array, after the opening bracket. -/
def parseJsonElems (fuel : Nat) (cs : List Char) (first : Bool)
    (acc : List JsVal) : Except String (List JsVal × List Char) :=
  if _h : fuel = 0 then .error "array: out of fuel"
  else
    match skipJsonWs cs with
    | [] => .error "unterminated array"
    | c :: rest =>
      if first && c = ']' then .ok (acc.reverse, rest)
      else
        match parseJsonValue (fuel - 1) (c :: rest) with
        | .error e => .error e
        | .ok (v, r1) =>
          match skipJsonWs r1 with
          | ',' :: r2 => parseJsonElems (fuel - 1) r2 false (v :: acc)
          | c2 :: r2 =>
            if c2 = ']' then .ok ((v :: acc).reverse, r2)
            else .error "expected comma or end of array"
          | [] => .error "unterminated array"
termination_by fuel

end

/-- `JSON.parse`: parse one value and require only whitespace after it. -/
def jsonParse (s : String) : Except String JsVal :=
  match parseJsonValue (4 * s.length + 16) s.data with
  | .error e => .error e
  | .ok (v, rest) =>
    if (skipJsonWs rest).isEmpty then .ok v
    else .error "unexpected trailing characters"

/-! ## ResponseNormalizer (`parseGeminiResponse`, `formatAnalysisForStorage`) -/

/-- Index of the last character satisfying `p`. -/
def lastIdxOf (p : Char → Bool) (cs : List Char) : Option Nat :=
  (cs.reverse.findIdx? p).map (fun k => cs.length - 1 - k)

/-- The match of the regular expression `\x7b[\s\S]*\x7d` against `s`: the
`[\s\S]*` is greedy, so the (single) match runs from the first `\x7b` to the
last `\x7d` of the whole text, when the former precedes the latter. -/
def jsonMatch (s : String) : Option String :=
  match s.data.findIdx? (fun c => c = lbrace), lastIdxOf (fun c => c = rbrace) s.data with
  | some i, some j => if i < j then some ⟨(s.data.drop i).take (j - i + 1)⟩ else none
  | _, _ => none

/-- Brace-depth scan: emit the prefix up to the brace closing the initial
depth-1 opening, if any. -/
def balancedScan : List Char → Nat → List Char → Option (List Char)
  | [], _, _ => none
  | c :: rest, depth, acc =>
    if c = lbrace then balancedScan rest (depth + 1) (c :: acc)
    else if c = rbrace then
      if depth = 1 then some (c :: acc).reverse
      else balancedScan rest (depth - 1) (c :: acc)
    else balancedScan rest depth (c :: acc)

/-- Modelled from the spec: the extraction step as the spec describes it —
"search the text for the first syntactically balanced `\x7b...\x7d` object
(brace-depth matching, not a greedy single-pattern match)".  Scans from the
first opening brace, tracking depth, and stops at the brace that balances
it.  Stated for comparison with `jsonMatch`, the extraction the source
actually performs. -/
def extractFirstBalanced (s : String) : Option String :=
  match s.data.findIdx? (fun c => c = lbrace) with
  | none => none
  | some i => (balancedScan (s.data.drop i) 0 []).map (fun cs => ⟨cs⟩)

/-- `parseGeminiResponse`: extract with `jsonMatch`, `JSON.parse` the match,
and on any failure return the raw-wrapped fallback object. -/
def parseGeminiResponse (rawResponse : String) : JsVal :=
  match jsonMatch rawResponse with
  | some m =>
    match jsonParse m with
    | .ok v => v
    | .error e =>
      .jobj [("rawResponse", .jstr rawResponse), ("parsed", .jbool false), ("error", .jstr e)]
  | none => .jobj [("rawResponse", .jstr rawResponse), ("parsed", .jbool false)]

/-- The stored analysis record built by `formatAnalysisForStorage`: exactly
the fields of the returned object literal.  `issues` and `recommendations`
are passed through as raw arrays, so their elements are arbitrary values. -/
structure StoredAnalysis where
  healthScore : JsNum
  growthStage : JsVal
  issues : List JsVal
  observations : JsVal
  recommendations : List JsVal
  nextPhotoDate : Option Int
  nextPhotoDays : JsNum
  urgency : String

/-- The branch condition `!geminiResponse.parsed && geminiResponse.parsed !== false`
of `formatAnalysisForStorage`, on an object's field list. -/
def takesParsedBranch (fields : List (String × JsVal)) : Bool :=
  let p := jsGetField fields "parsed"
  !p.truthy && !(match p with | .jbool false => true | _ => false)

/-- The urgency whitelist check
`['routine','important','critical','urgent'].includes(analysis.urgency)`:
strict equality, so only those exact strings pass; everything else falls back
to `'routine'`. -/
def normalizeUrgency (v : JsVal) : String :=
  match v with
  | .jstr u =>
    if u = "routine" || u = "important" || u = "critical" || u = "urgent" then u
    else "routine"
  | _ => "routine"

/-- `formatAnalysisForStorage(geminiResponse, dayNumber)`, with JavaScript
property reads made explicit (they throw on a `null`/`undefined` receiver,
hence the `Except`).  `dayNumber` is accepted and unused, as in the source. -/
def formatAnalysisForStorageE (geminiResponse : JsVal) (dayNumber : JsNum) :
    Except String StoredAnalysis := do
  let _ := dayNumber
  let parsedField ← jsMember geminiResponse "parsed"
  if !parsedField.truthy && !(match parsedField with | .jbool false => true | _ => false) then
    let hs ← jsMember geminiResponse "healthScore"
    let gs ← jsMember geminiResponse "growthStage"
    let iss ← jsMember geminiResponse "issues"
    let obs ← jsMember geminiResponse "observations"
    let recs ← jsMember geminiResponse "recommendations"
    let npd ← jsMember geminiResponse "nextPhotoDays"
    let urg ← jsMember geminiResponse "urgency"
    .ok {
      healthScore := JsNum.jsMax (.num 0) (JsNum.jsMin (.num 100) (jsOr hs (.jnum (.num 50))).toNumber)
      growthStage := jsOr gs (.jstr "unknown")
      issues := match iss with | .jarr xs => xs | _ => []
      observations := jsOr obs (.jstr "No observations available")
      recommendations := match recs with | .jarr xs => xs | _ => [.jstr "Monitor plant growth"]
      nextPhotoDate := none
      nextPhotoDays := JsNum.jsMax (.num 1) (JsNum.jsMin (.num 7) (jsOr npd (.jnum (.num 4))).toNumber)
      urgency := normalizeUrgency urg }
  else
    let raw ← jsMember geminiResponse "rawResponse"
    .ok {
      healthScore := .num 50
      growthStage := .jstr "unknown"
      issues := [.jstr "Unable to parse AI response"]
      observations := jsOr raw (.jstr "Analysis unavailable")
      recommendations := [.jstr "Manual review needed"]
      nextPhotoDate := none
      nextPhotoDays := .num 3
      urgency := "important" }

/-- Milliseconds per day (`24 * 60 * 60 * 1000`); calendar-day arithmetic is
modelled as fixed-length days on a millisecond timeline. -/
def dayMs : Int := 24 * 60 * 60 * 1000

/-- The fallback object returned by `analyzeGrowthPhoto`'s catch block when
the upstream call (or anything after it) throws. -/
def unavailableRecord (now : Int) : StoredAnalysis :=
  { healthScore := .num 50
    growthStage := .jstr "unknown"
    issues := [.jstr "Analysis failed - manual review needed"]
    observations := .jstr "AI analysis unavailable"
    recommendations := [.jstr "Upload photo again", .jstr "Check image quality"]
    nextPhotoDate := some (now + 3 * dayMs)
    nextPhotoDays := .num 3
    urgency := "important" }

/-- The record produced for raw text whose extraction or parse failed: the
fallback branch of `formatAnalysisForStorage` applied to the raw-wrapped
object of `parseGeminiResponse`. -/
def degradedRecord (rawResponse : String) : StoredAnalysis :=
  { healthScore := .num 50
    growthStage := .jstr "unknown"
    issues := [.jstr "Unable to parse AI response"]
    observations := jsOr (.jstr rawResponse) (.jstr "Analysis unavailable")
    recommendations := [.jstr "Manual review needed"]
    nextPhotoDate := none
    nextPhotoDays := .num 3
    urgency := "important" }

/-- Outcome of the upstream executor as seen by the normalization boundary:
raw text, or the terminal failure thrown after retry exhaustion. -/
inductive AnalyzeOutcome where
  | text (raw : String)
  | failed (cause : String)

/-- The spec's `normalize`: `parseGeminiResponse` followed by
`formatAnalysisForStorage` on success, the catch-block fallback on upstream
failure.  The `Except` layer records any JavaScript error the stage itself
would throw. -/
def normalizeE (now : Int) : AnalyzeOutcome → Except String StoredAnalysis
  | .failed _ => .ok (unavailableRecord now)
  | .text raw => formatAnalysisForStorageE (parseGeminiResponse raw) (.num 1)

/-- `analyzeGrowthPhoto`, from the upstream outcome on: the try block runs
parse and format, and the catch block turns any thrown error into the
unavailable fallback record. -/
def analyzeGrowthPhotoModel (now : Int) (upstream : Except String String) :
    StoredAnalysis :=
  match upstream with
  | .error _ => unavailableRecord now
  | .ok raw =>
    match formatAnalysisForStorageE (parseGeminiResponse raw) (.num 1) with
    | .ok a => a
    | .error _ => unavailableRecord now

/-! ## ScheduleCalculator (`calculateNextPhotoDate`) -/

/-- Does `needle` occur at the start of `hay`? -/
def charsStartWith : List Char → List Char → Bool
  | [], _ => true
  | _ :: _, [] => false
  | p :: ps, c :: cs => p = c && charsStartWith ps cs

/-- Does `needle` occur anywhere in `hay` (`String.prototype.includes`)? -/
def hasSubstr (needle : List Char) : List Char → Bool
  | [] => needle.isEmpty
  | c :: rest => charsStartWith needle (c :: rest) || hasSubstr needle rest

/-- One step of the critical-issue predicate
`issue.toLowerCase().includes('disease') || ... 'pest' || ... 'dying'`;
calling `toLowerCase` on a non-string element throws. -/
def critIssueCheck (v : JsVal) : Except String Bool :=
  match v with
  | .jstr s =>
    let low := s.data.map Char.toLower
    .ok (hasSubstr "disease".data low || hasSubstr "pest".data low ||
      hasSubstr "dying".data low)
  | _ => .error "TypeError: issue.toLowerCase is not a function"

/-- `issues.some(...)` over the critical-issue predicate: stops at the first
hit, propagates the first thrown error. -/
def someCritIssue : List JsVal → Except String Bool
  | [] => .ok false
  | v :: rest => do
    let b ← critIssueCheck v
    if b then .ok true else someCritIssue rest

/-- The property key `growthStage` stringifies to, up to equivalence on the
four keys of `stageAdjustments`: only a string (or an array whose comma-join
is such a string) can name one of them; numbers, booleans, `null`, objects
and multi-element arrays never do. -/
def stageKeyString : JsVal → Option String
  | .jstr s => some s
  | .jarr [x] => stageKeyString x
  | _ => none

/-- `stageAdjustments[growthStage] || 0`. -/
def stageAdjustment (growthStage : JsVal) : Int :=
  match stageKeyString growthStage with
  | some "germination" => 1
  | some "flowering" => -1
  | some "fruiting" => -1
  | some "maturity" => 1
  | _ => 0

/-- The scheduling decision object of `calculateNextPhotoDate`. -/
structure ScheduleDecision where
  nextPhotoDate : Option Int
  nextPhotoDays : JsNum
  urgency : String
deriving DecidableEq

/-- Truncation toward zero, as `Date.prototype.setDate` applies to its
argument. -/
def ratTrunc (q : Rat) : Int :=
  if q < 0 then -(Int.floor (-q)) else Int.floor q

/-- `new Date()` plus `finalDays` calendar days: defined for a finite day
count, an invalid date (`none`) otherwise. -/
def scheduleDate (now : Int) (d : JsNum) : Option Int :=
  match d with
  | .num q => some (now + ratTrunc q * dayMs)
  | _ => none

/-- `calculateNextPhotoDate(currentAnalysis, cropType, growthStage)`.  The
current clock (`new Date()`) is an explicit `now` input; `cropType` is
accepted and unused, as in the source.  The `Except` layer records the
`TypeError` thrown when a non-string issue reaches `toLowerCase`. -/
def calculateNextPhotoDate (now : Int) (currentAnalysis : StoredAnalysis)
    (cropType : String) (growthStage : JsVal) : Except String ScheduleDecision := do
  let _ := cropType
  let baseDays0 :=
    if currentAnalysis.nextPhotoDays.truthy then currentAnalysis.nextPhotoDays else .num 4
  let baseDays1 :=
    if JsNum.lt currentAnalysis.healthScore (.num 70) then
      JsNum.jsMax (.num 1) (JsNum.sub baseDays0 (.num 1))
    else baseDays0
  let baseDays2 ←
    if currentAnalysis.issues.length > 0 then do
      let hasCrit ← someCritIssue currentAnalysis.issues
      pure (if hasCrit then JsNum.jsMin (.num 2) baseDays1 else baseDays1)
    else pure baseDays1
  let baseDays3 := JsNum.add baseDays2 (.num ((stageAdjustment growthStage : Int) : Rat))
  let finalDays := JsNum.jsMax (.num 1) (JsNum.jsMin (.num 7) baseDays3)
  let urgency :=
    if JsNum.le finalDays (.num 2) then "critical"
    else if JsNum.le finalDays (.num 3) then "important"
    else "routine"
  .ok { nextPhotoDate := scheduleDate now finalDays
        nextPhotoDays := finalDays
        urgency := urgency }

/-- The greedy-match characterization: `m` is the span of `s` running from
the first opening brace of `s` to the last closing brace of `s`. -/
def SpansFirstToLastBrace (s m : String) : Prop :=
  ∃ i j, i < j ∧
    s.data[i]? = some lbrace ∧ (∀ k, k < i → s.data[k]? ≠ some lbrace) ∧
    s.data[j]? = some rbrace ∧ (∀ k, j < k → s.data[k]? ≠ some rbrace) ∧
    m.data = (s.data.drop i).take (j - i + 1)

/-- Sample normalized analysis used as a concrete scheduling input. -/
def sampleAnalysis : StoredAnalysis :=
  { healthScore := .num 90
    growthStage := .jstr "vegetative"
    issues := []
    observations := .jstr "healthy plant"
    recommendations := []
    nextPhotoDate := none
    nextPhotoDays := .num 5
    urgency := "routine" }

/-! # Theorems -/

/-! Bridge lemmas evaluating the `JsNum` operations on finite values. -/

theorem jsMin_num_num (a b : Rat) :
    JsNum.jsMin (.num a) (.num b) = .num (min a b) := by
  by_cases h : a < b
  · simp [JsNum.jsMin, JsNum.lt, h, min_eq_left h.le]
  · simp [JsNum.jsMin, JsNum.lt, h, min_eq_right (not_lt.mp h)]

theorem jsMax_num_num (a b : Rat) :
    JsNum.jsMax (.num a) (.num b) = .num (max a b) := by
  by_cases h : a < b
  · simp [JsNum.jsMax, JsNum.lt, h, max_eq_right h.le]
  · simp [JsNum.jsMax, JsNum.lt, h, max_eq_left (not_lt.mp h)]

theorem add_num_num (a b : Rat) : JsNum.add (.num a) (.num b) = .num (a + b) := rfl

theorem lt_num_num (a b : Rat) : JsNum.lt (.num a) (.num b) = decide (a < b) := rfl

theorem le_num_num (a b : Rat) : JsNum.le (.num a) (.num b) = decide (a ≤ b) := by
  simp [JsNum.le, JsNum.lt, ← not_lt, decide_not]

theorem truthy_num (q : Rat) : JsNum.truthy (.num q) = decide (q ≠ 0) := rfl

theorem toNumber_jnum (n : JsNum) : JsVal.toNumber (.jnum n) = n := by
  cases n <;> simp [JsVal.toNumber]

/-- Evaluation of `formatAnalysisForStorage` on an object that does not carry
the fallback marker: the validated record, field by field. -/
theorem format_parsed_branch (fields : List (String × JsVal)) (d : JsNum)
    (h1 : takesParsedBranch fields = true) :
    formatAnalysisForStorageE (.jobj fields) d = .ok
      { healthScore := JsNum.jsMax (.num 0) (JsNum.jsMin (.num 100)
          (jsOr (jsGetField fields "healthScore") (.jnum (.num 50))).toNumber)
        growthStage := jsOr (jsGetField fields "growthStage") (.jstr "unknown")
        issues := match jsGetField fields "issues" with | .jarr xs => xs | _ => []
        observations := jsOr (jsGetField fields "observations") (.jstr "No observations available")
        recommendations := match jsGetField fields "recommendations" with
          | .jarr xs => xs
          | _ => [.jstr "Monitor plant growth"]
        nextPhotoDate := none
        nextPhotoDays := JsNum.jsMax (.num 1) (JsNum.jsMin (.num 7)
          (jsOr (jsGetField fields "nextPhotoDays") (.jnum (.num 4))).toNumber)
        urgency := normalizeUrgency (jsGetField fields "urgency") } := by
  simp only [takesParsedBranch] at h1
  simp [formatAnalysisForStorageE, jsMember, h1, Bind.bind, Except.bind]

/-- Claim C6: with batch size 3 (`ROTATION_INTERVAL`) and a pool of two
credentials, starting from `rotationCounter = 0`, the first six selections
return the credentials at indices 0,0,0,1,1,1 and leave the counter at 6. -/
theorem rotation_batches_of_three (legacyKey : Option String) (k1 k2 : String) :
    runSelections legacyKey 6 ⟨[k1, k2], 0⟩ =
      ([some k1, some k1, some k1, some k2, some k2, some k2], ⟨[k1, k2], 6⟩) := by
  simp [runSelections, getNextApiKey, ROTATION_INTERVAL]

/-- Claim C7: with an empty credential pool every selection returns the
configured legacy credential and leaves the state — in particular
`rotationCounter` — unchanged. -/
theorem empty_pool_returns_legacy (legacyKey : Option String) (counter : Nat) :
    getNextApiKey legacyKey ⟨[], counter⟩ = (legacyKey, ⟨[], counter⟩) ∧
    (getNextApiKey legacyKey ⟨[], counter⟩).2.rotationCounter = counter :=
  ⟨rfl, rfl⟩

/-- Claim C2 (counterexample): with a two-credential pool and an upstream
that always fails, one logical `analyzeWithGemini` call makes 3 attempts but
the pool's `rotationCounter` stays at 0 — it does not advance once per
attempt (0 ≠ 0 + 3), because the request URL (and with it the credential) is
built once, before the retry loop, from the legacy environment key. -/
theorem credential_not_fresh_per_attempt :
    (analyzeWithGeminiRun (some "legacy-key") ⟨["k1", "k2"], 0⟩
        (fun _ => Except.error "network error")).attempts = 3 ∧
    (analyzeWithGeminiRun (some "legacy-key") ⟨["k1", "k2"], 0⟩
        (fun _ => Except.error "network error")).poolAfter.rotationCounter = 0 ∧
    (0 : Nat) ≠ 0 + 3 := by
  refine ⟨?_, rfl, by decide⟩
  simp [analyzeWithGeminiRun, geminiRetryLoop]

/-- Claim C2 (amended): `analyzeWithGemini` reads its credential once per
logical call — every attempt of the call carries that same legacy
credential and the key-pool state is untouched; only the single-attempt
`callGeminiAPI` variant consults the pool, advancing the rotation counter
exactly once per call. -/
theorem credential_once_per_logical_call
    (legacyKey : Option String) (pool : KeyPoolState)
    (outcomes : Nat → Except String String) :
    (analyzeWithGeminiRun legacyKey pool outcomes).attemptKeys =
      List.replicate (analyzeWithGeminiRun legacyKey pool outcomes).attempts legacyKey ∧
    (analyzeWithGeminiRun legacyKey pool outcomes).poolAfter = pool ∧
    (∀ pool' o, pool'.apiKeys ≠ [] →
      (callGeminiAPIRun legacyKey pool' o).2.1.rotationCounter =
        pool'.rotationCounter + 1) := by
  refine ⟨rfl, rfl, ?_⟩
  intro pool' o h
  have hlen : pool'.apiKeys.length > 0 := List.length_pos.mpr h
  simp [callGeminiAPIRun, getNextApiKey, hlen]

/-- Claim C2 (witness for the amended statement). -/
theorem credential_once_per_logical_call_witness :
    (⟨["k1", "k2"], 5⟩ : KeyPoolState).apiKeys ≠ [] ∧
    (callGeminiAPIRun (some "legacy-key") ⟨["k1", "k2"], 5⟩
        (Except.ok "text")).2.1.rotationCounter = 5 + 1 :=
  ⟨by decide,
    (credential_once_per_logical_call (some "legacy-key") ⟨["k1", "k2"], 5⟩
        (fun _ => Except.ok "text")).2.2 ⟨["k1", "k2"], 5⟩ (Except.ok "text")
        (by decide)⟩

theorem isJsonWs_lbrace : isJsonWs lbrace = false := by decide

/-- One unfolding step of the parser on a brace-headed input: it commits to
an object. -/
theorem parseJsonValue_brace (fuel : Nat) (hf : fuel ≠ 0) (t : List Char) :
    parseJsonValue fuel (lbrace :: t) =
      (parseJsonMembers (fuel - 1) t true []).map (fun p => (.jobj p.1, p.2)) := by
  rw [parseJsonValue]
  simp [hf, skipJsonWs, isJsonWs_lbrace]

/-- A successful `jsonMatch` always yields a string starting with an opening
brace. -/
theorem jsonMatch_head {s m : String} (h : jsonMatch s = some m) :
    ∃ t, m.data = lbrace :: t := by
  unfold jsonMatch at h
  cases hf : s.data.findIdx? (fun c => c = lbrace) with
  | none => rw [hf] at h; cases h
  | some i =>
    cases hl : lastIdxOf (fun c => c = rbrace) s.data with
    | none => rw [hf, hl] at h; cases h
    | some j =>
      rw [hf, hl] at h
      dsimp only at h
      by_cases hij : i < j
      · rw [if_pos hij] at h
        obtain ⟨hlen, hp, -⟩ := List.findIdx?_eq_some_iff_getElem.mp hf
        have hi : s.data[i] = lbrace := by simpa using hp
        have hm : m.data = (s.data.drop i).take (j - i + 1) := by
          rw [← Option.some.inj h]
        rw [List.drop_eq_getElem_cons hlen, hi] at hm
        rw [show j - i + 1 = (j - i) + 1 from rfl, List.take_succ_cons] at hm
        exact ⟨_, hm⟩
      · rw [if_neg hij] at h; cases h

/-- `JSON.parse` of a string starting with an opening brace either fails or
produces an object. -/
theorem jsonParse_brace {s : String} {t : List Char} (h : s.data = lbrace :: t) :
    (∃ e, jsonParse s = .error e) ∨ ∃ fields, jsonParse s = .ok (.jobj fields) := by
  unfold jsonParse
  rw [h, parseJsonValue_brace _ (by omega) t]
  cases hm : parseJsonMembers (4 * s.length + 16 - 1) t true [] with
  | error e => exact Or.inl ⟨e, rfl⟩
  | ok p =>
    by_cases hrest : (skipJsonWs p.2).isEmpty
    · exact Or.inr ⟨p.1, by simp [Except.map, hrest]⟩
    · exact Or.inl ⟨"unexpected trailing characters", by simp [Except.map, hrest]⟩

/-- `parseGeminiResponse` always returns an object: the parsed value (which
extraction guarantees is an object) or the raw-wrapped fallback. -/
theorem parseGemini_jobj (raw : String) :
    ∃ fields, parseGeminiResponse raw = .jobj fields := by
  unfold parseGeminiResponse
  cases hm : jsonMatch raw with
  | none => exact ⟨_, rfl⟩
  | some m =>
    obtain ⟨t, ht⟩ := jsonMatch_head hm
    rcases jsonParse_brace ht with ⟨e, he⟩ | ⟨fields, hok⟩
    · simp only [he]; exact ⟨_, rfl⟩
    · simp only [hok]; exact ⟨fields, rfl⟩

/-- `formatAnalysisForStorage` never throws on an object input. -/
theorem format_jobj_ok (fields : List (String × JsVal)) (d : JsNum) :
    ∃ a, formatAnalysisForStorageE (.jobj fields) d = .ok a := by
  by_cases h : takesParsedBranch fields = true
  · exact ⟨_, format_parsed_branch fields d h⟩
  · simp only [takesParsedBranch] at h
    simp [formatAnalysisForStorageE, jsMember, h, Bind.bind, Except.bind]

/-- What `lastIdxOf` finds: an index holding a character satisfying `p`,
with nothing satisfying `p` after it. -/
theorem lastIdxOf_spec {p : Char → Bool} {cs : List Char} {j : Nat}
    (h : lastIdxOf p cs = some j) :
    ∃ c, cs[j]? = some c ∧ p c ∧
      ∀ k, j < k → ∀ c', cs[k]? = some c' → ¬ p c' := by
  unfold lastIdxOf at h
  rcases Option.map_eq_some'.mp h with ⟨k, hk, hj⟩
  obtain ⟨hklen, hpk, hmin⟩ := List.findIdx?_eq_some_iff_getElem.mp hk
  have hklen2 : k < cs.length := by simpa using hklen
  rw [List.getElem_reverse hklen] at hpk
  subst hj
  refine ⟨_, List.getElem?_eq_getElem (by omega), hpk, ?_⟩
  intro k2 hgt c2 hc2 hpc2
  have hk2len : k2 < cs.length := by
    by_contra hge
    rw [List.getElem?_eq_none (by omega)] at hc2
    cases hc2
  have hmirror : cs.length - 1 - k2 < cs.reverse.length := by simp; omega
  have hnot := hmin (cs.length - 1 - k2) (by omega)
  rw [List.getElem_reverse hmirror] at hnot
  simp only [show cs.length - 1 - (cs.length - 1 - k2) = k2 from by omega] at hnot
  have hceq := Option.some.inj ((List.getElem?_eq_getElem hk2len).symm.trans hc2)
  exact hnot (by rw [hceq]; exact hpc2)

/-- Claim C1 (counterexample): extraction is not brace-depth matching — on
text holding a balanced object followed by a stray closing brace, the
greedy regex takes the whole span from the first opening brace to the last
closing brace, while first-balanced extraction stops at the object. -/
theorem extraction_not_brace_depth :
    jsonMatch "\x7b\"a\":1\x7d and \x7d" ≠
      extractFirstBalanced "\x7b\"a\":1\x7d and \x7d" ∧
    extractFirstBalanced "\x7b\"a\":1\x7d and \x7d" = some "\x7b\"a\":1\x7d" ∧
    jsonMatch "\x7b\"a\":1\x7d and \x7d" = some "\x7b\"a\":1\x7d and \x7d" :=
  ⟨by decide, by decide, by decide⟩

/-- Claim C1 (amended): the extraction step is a greedy single-pattern
match, not brace-depth matching: any successful `jsonMatch` is exactly the
span of the text from its first opening brace to its last closing brace (so
a closing brace in trailing text extends the extracted substring beyond the
first balanced object); the extracted substring is then parsed. -/
theorem jsonMatch_greedy_span (s m : String) (h : jsonMatch s = some m) :
    SpansFirstToLastBrace s m := by
  unfold jsonMatch at h
  cases hf : s.data.findIdx? (fun c => c = lbrace) with
  | none => rw [hf] at h; cases h
  | some i =>
    cases hl : lastIdxOf (fun c => c = rbrace) s.data with
    | none => rw [hf, hl] at h; cases h
    | some j =>
      rw [hf, hl] at h
      dsimp only at h
      by_cases hij : i < j
      · rw [if_pos hij] at h
        obtain ⟨hlen, hp, hmin⟩ := List.findIdx?_eq_some_iff_getElem.mp hf
        obtain ⟨c, hcj, hpc, hafter⟩ := lastIdxOf_spec hl
        refine ⟨i, j, hij, ?_, ?_, ?_, ?_, ?_⟩
        · rw [List.getElem?_eq_getElem hlen]
          simpa using hp
        · intro k hk heq
          have hklen : k < s.data.length := lt_trans hk hlen
          rw [List.getElem?_eq_getElem hklen] at heq
          have hnot := hmin k hk
          simp only [decide_eq_true_eq] at hnot
          exact hnot (Option.some.inj heq)
        · rw [hcj]
          simp only [decide_eq_true_eq] at hpc
          rw [hpc]
        · intro k hk heq
          exact hafter k hk rbrace heq (by simp)
        · rw [← Option.some.inj h]
      · rw [if_neg hij] at h; cases h

/-- Claim C1 (witness for the amended statement). -/
theorem jsonMatch_greedy_span_witness :
    jsonMatch "x\x7by\x7dz" = some "\x7by\x7d" ∧
    SpansFirstToLastBrace "x\x7by\x7dz" "\x7by\x7d" :=
  ⟨by decide, jsonMatch_greedy_span _ _ (by decide)⟩

/-- Claim C4: normalization never throws — for every input (well-formed
text, malformed text, or an upstream failure) it returns a complete record;
an upstream failure yields the unavailable record, and text with no
extractable object yields the degraded record. -/
theorem normalize_never_throws :
    (∀ (now : Int) (o : AnalyzeOutcome), ∃ a, normalizeE now o = .ok a) ∧
    (∀ (now : Int) (cause : String),
      normalizeE now (.failed cause) = .ok (unavailableRecord now)) ∧
    (∀ (now : Int) (raw : String), jsonMatch raw = none →
      normalizeE now (.text raw) = .ok (degradedRecord raw)) := by
  refine ⟨?_, fun now cause => rfl, ?_⟩
  · intro now o
    cases o with
    | failed cause => exact ⟨_, rfl⟩
    | text raw =>
      obtain ⟨fields, hf⟩ := parseGemini_jobj raw
      simp only [normalizeE, hf]
      exact format_jobj_ok fields (.num 1)
  · intro now raw h
    have h1 : jsGetField [("rawResponse", JsVal.jstr raw), ("parsed", JsVal.jbool false)]
        "parsed" = .jbool false := rfl
    have h2 : jsGetField [("rawResponse", JsVal.jstr raw), ("parsed", JsVal.jbool false)]
        "rawResponse" = .jstr raw := rfl
    simp only [normalizeE, parseGeminiResponse, h]
    simp [formatAnalysisForStorageE, jsMember, h1, h2, JsVal.truthy, degradedRecord,
      Bind.bind, Except.bind]

/-- Claim C4 (witness). -/
theorem normalize_never_throws_witness :
    jsonMatch "plain text with no json" = none ∧
    normalizeE 0 (.text "plain text with no json") =
      .ok (degradedRecord "plain text with no json") :=
  ⟨by decide, normalize_never_throws.2.2 0 "plain text with no json" (by decide)⟩

/-- Claim C3 (counterexample): both value clauses of the claim fail on the
code.  A parsed object carrying `healthScore: 0` normalizes to `50`, not
`0` — the `|| 50` default treats the falsy numeric `0` as missing.  And a
parsed object carrying the truthy non-numeric `healthScore: "abc"` does not
become `50`: it passes through `Math.min`/`Math.max` number coercion and
normalizes to `NaN`, which is no number at all — outside `[0,100]`. -/
theorem healthScore_zero_not_preserved :
    (formatAnalysisForStorageE (.jobj [("healthScore", .jnum (.num 0))]) (.num 1)).map
        (fun a => a.healthScore) = .ok (.num 50) ∧ JsNum.num 50 ≠ .num 0 ∧
    (formatAnalysisForStorageE (.jobj [("healthScore", JsVal.jstr "abc")]) (.num 1)).map
        (fun a => a.healthScore) = .ok .nan ∧
    (∀ q : Rat, JsNum.nan ≠ .num q) := by
  refine ⟨?_, ?_, ?_, fun q h => JsNum.noConfusion h⟩
  · rw [format_parsed_branch _ _ (by decide)]
    norm_num [jsGetField, jsOr, JsVal.truthy, JsNum.truthy, toNumber_jnum,
      jsMin_num_num, jsMax_num_num, Except.map]
  · intro h
    rw [JsNum.num.injEq] at h
    norm_num at h
  · rw [format_parsed_branch _ _ (by decide)]
    have hnan : strToNum "abc" = .nan := rfl
    simp [jsGetField, jsOr, JsVal.truthy, JsVal.toNumber, hnan, JsNum.jsMin,
      JsNum.jsMax, Except.map]

/-- Claim C3 (amended): for every successfully extracted and parsed response
object, normalization of `healthScore` behaves as follows.  A nonzero
numeric value is clamped into `[0,100]`.  A value of `0` does not remain
`0`: being falsy it takes the missing-value default `50`, as does an absent
value.  A truthy non-numeric value does not become `50`: it is passed
through JavaScript number coercion, and when that coercion fails (a string
with no numeric reading) the normalized healthScore is `NaN`, outside
`[0,100]`. -/
theorem healthScore_clamped (fields : List (String × JsVal)) (d : JsNum)
    (h1 : takesParsedBranch fields = true) :
    ∃ a, formatAnalysisForStorageE (.jobj fields) d = .ok a ∧
      (∀ q : Rat, jsGetField fields "healthScore" = .jnum (.num q) → q ≠ 0 →
        a.healthScore = .num (max 0 (min 100 q)) ∧
        (0 : Rat) ≤ max 0 (min 100 q) ∧ max 0 (min 100 q) ≤ 100) ∧
      ((jsGetField fields "healthScore" = .jundefined ∨
        jsGetField fields "healthScore" = .jnum (.num 0)) →
        a.healthScore = .num 50) ∧
      (∀ s : String, jsGetField fields "healthScore" = .jstr s → s ≠ "" →
        strToNum s = .nan → a.healthScore = .nan) := by
  refine ⟨_, format_parsed_branch fields d h1, ?_, ?_, ?_⟩
  · intro q hq hq0
    refine ⟨?_, le_max_left 0 _, max_le (by norm_num) (min_le_left 100 q)⟩
    simp [hq, jsOr, JsVal.truthy, JsNum.truthy, hq0, toNumber_jnum,
      jsMin_num_num, jsMax_num_num]
  · intro hcase
    rcases hcase with h2 | h2 <;>
      norm_num [h2, jsOr, JsVal.truthy, JsNum.truthy, toNumber_jnum,
        jsMin_num_num, jsMax_num_num]
  · intro s hs hne hnan
    have hempty : s.isEmpty = false := by
      rw [Bool.eq_false_iff]
      simpa [String.isEmpty_iff] using hne
    simp [hs, jsOr, JsVal.truthy, hempty, JsVal.toNumber, hnan,
      JsNum.jsMin, JsNum.jsMax]

/-- Claim C3 (witness for the amended statement). -/
theorem healthScore_clamped_witness :
    takesParsedBranch [("healthScore", JsVal.jnum (.num 30))] = true ∧
    (∃ a, formatAnalysisForStorageE
        (.jobj [("healthScore", JsVal.jnum (.num 30))]) (.num 1) = .ok a ∧
      (∀ q : Rat,
        jsGetField [("healthScore", JsVal.jnum (.num 30))] "healthScore" =
          .jnum (.num q) → q ≠ 0 →
        a.healthScore = .num (max 0 (min 100 q)) ∧
        (0 : Rat) ≤ max 0 (min 100 q) ∧ max 0 (min 100 q) ≤ 100) ∧
      ((jsGetField [("healthScore", JsVal.jnum (.num 30))] "healthScore" = .jundefined ∨
        jsGetField [("healthScore", JsVal.jnum (.num 30))] "healthScore" =
          .jnum (.num 0)) → a.healthScore = .num 50) ∧
      (∀ s : String,
        jsGetField [("healthScore", JsVal.jnum (.num 30))] "healthScore" = .jstr s →
        s ≠ "" → strToNum s = .nan → a.healthScore = .nan)) :=
  ⟨by decide, healthScore_clamped _ _ (by decide)⟩

/-- Claim C9 (counterexample): a parsed object whose `recommendations` field
is a string (not an array) normalizes to the default one-element sequence
`['Monitor plant growth']` — not to the empty sequence. -/
theorem recommendations_default_not_empty :
    ∃ a, formatAnalysisForStorageE
        (.jobj [("recommendations", JsVal.jstr "water daily")]) (.num 1) = .ok a ∧
      a.recommendations = [.jstr "Monitor plant growth"] ∧
      a.recommendations ≠ [] := by
  refine ⟨_, format_parsed_branch _ _ (by decide), rfl, ?_⟩
  show ([JsVal.jstr "Monitor plant growth"] : List JsVal) ≠ []
  simp

/-- Claim C9 (amended): on the validated branch, a `recommendations` field
that is not sequence-shaped is replaced by the default sequence
`['Monitor plant growth']` (the empty-sequence coercion applies to `issues`,
not to `recommendations`). -/
theorem recommendations_default_on_non_sequence (fields : List (String × JsVal))
    (d : JsNum) (h1 : takesParsedBranch fields = true)
    (h2 : ∀ xs, jsGetField fields "recommendations" ≠ .jarr xs) :
    ∃ a, formatAnalysisForStorageE (.jobj fields) d = .ok a ∧
      a.recommendations = [.jstr "Monitor plant growth"] := by
  refine ⟨_, format_parsed_branch fields d h1, ?_⟩
  cases hr : jsGetField fields "recommendations" <;> simp_all

/-- Claim C9 (witness for the amended statement). -/
theorem recommendations_default_on_non_sequence_witness :
    takesParsedBranch [("recommendations", JsVal.jstr "keep watering")] = true ∧
    (∃ a, formatAnalysisForStorageE
        (.jobj [("recommendations", JsVal.jstr "keep watering")]) (.num 1) = .ok a ∧
      a.recommendations = [.jstr "Monitor plant growth"]) :=
  ⟨by decide, recommendations_default_on_non_sequence _ _ (by decide)
    (fun xs h => by simp [jsGetField] at h)⟩

/-- Claim C10: an extracted and successfully parsed object that itself has a
boolean field named `parsed` is mistaken for the normalizer's own fallback
marker: normalization returns the degraded record (healthScore 50,
growthStage `unknown`, issues `['Unable to parse AI response']`) instead of
the validated record built from the object's fields. -/
theorem parsed_field_collision (fields : List (String × JsVal)) (d : JsNum)
    (b : Bool) (h : jsGetField fields "parsed" = .jbool b) :
    ∃ a, formatAnalysisForStorageE (.jobj fields) d = .ok a ∧
      a.healthScore = .num 50 ∧ a.growthStage = .jstr "unknown" ∧
      a.issues = [.jstr "Unable to parse AI response"] ∧
      a.recommendations = [.jstr "Manual review needed"] ∧
      a.nextPhotoDays = .num 3 ∧ a.urgency = "important" := by
  have hrec : formatAnalysisForStorageE (.jobj fields) d = .ok
      { healthScore := .num 50
        growthStage := .jstr "unknown"
        issues := [.jstr "Unable to parse AI response"]
        observations := jsOr (jsGetField fields "rawResponse") (.jstr "Analysis unavailable")
        recommendations := [.jstr "Manual review needed"]
        nextPhotoDate := none
        nextPhotoDays := .num 3
        urgency := "important" } := by
    cases b <;>
      simp [formatAnalysisForStorageE, jsMember, h, JsVal.truthy,
        Bind.bind, Except.bind, Pure.pure, Except.pure]
  exact ⟨_, hrec, rfl, rfl, rfl, rfl, rfl, rfl⟩

/-- Claim C10 (witness). -/
theorem parsed_field_collision_witness :
    jsGetField [("parsed", JsVal.jbool true), ("healthScore", JsVal.jnum (.num 92))]
      "parsed" = .jbool true ∧
    (∃ a, formatAnalysisForStorageE
        (.jobj [("parsed", JsVal.jbool true), ("healthScore", JsVal.jnum (.num 92))])
        (.num 1) = .ok a ∧
      a.healthScore = .num 50 ∧ a.growthStage = .jstr "unknown" ∧
      a.issues = [.jstr "Unable to parse AI response"] ∧
      a.recommendations = [.jstr "Manual review needed"] ∧
      a.nextPhotoDays = .num 3 ∧ a.urgency = "important") :=
  ⟨rfl, parsed_field_collision _ _ true rfl⟩

/-- Claim C5 (counterexample): two invocations of `calculateNextPhotoDate`
with identical analysis, cropType and growthStage inputs but different
clock readings return different decisions — `nextPhotoDate` tracks the
invocation time, so the function is not a pure function of the three listed
inputs. -/
theorem schedule_not_clock_independent :
    calculateNextPhotoDate 0 sampleAnalysis "tomato" (.jstr "vegetative") ≠
      calculateNextPhotoDate dayMs sampleAnalysis "tomato" (.jstr "vegetative") := by
  have hval : ∀ now : Int,
      calculateNextPhotoDate now sampleAnalysis "tomato" (.jstr "vegetative") =
        .ok ⟨some (now + 5 * dayMs), .num 5, "routine"⟩ := by
    intro now
    have hadj : stageAdjustment (JsVal.jstr "vegetative") = 0 := rfl
    norm_num [calculateNextPhotoDate, sampleAnalysis, someCritIssue, JsNum.truthy, hadj,
      jsMin_num_num, jsMax_num_num, add_num_num, lt_num_num, le_num_num,
      scheduleDate, ratTrunc, Bind.bind, Except.bind, Pure.pure, Except.pure]
  rw [hval 0, hval dayMs]
  intro h
  simp only [Except.ok.injEq, ScheduleDecision.mk.injEq, Option.some.injEq] at h
  have := h.1
  norm_num [dayMs] at this

/-- Claim C5 (amended): `nextPhotoDays` and `urgency` are deterministic in
the analysis and growthStage inputs — across any two invocations with the
same analysis and growthStage they agree, whatever the clock reading or
cropType (which the computation ignores); only `nextPhotoDate` additionally
depends on the invocation time. -/
theorem schedule_days_urgency_deterministic (now now' : Int) (a : StoredAnalysis)
    (cropType cropType' : String) (growthStage : JsVal) :
    (calculateNextPhotoDate now a cropType growthStage).map
        (fun d => (d.nextPhotoDays, d.urgency)) =
      (calculateNextPhotoDate now' a cropType' growthStage).map
        (fun d => (d.nextPhotoDays, d.urgency)) := by
  by_cases hi : a.issues.length > 0
  · cases hc : someCritIssue a.issues <;>
      simp [calculateNextPhotoDate, hi, hc, Bind.bind, Except.bind, Except.map,
        Pure.pure, Except.pure]
  · simp [calculateNextPhotoDate, hi, Bind.bind, Except.bind, Except.map,
      Pure.pure, Except.pure]

/-- Claim C8: when every upstream attempt fails, the executor makes exactly
3 attempts, sleeping 1× and 2× the 1000 ms base delay before the second and
third; it then fails with the retry-exhaustion error carrying the most
recent cause (that of the third attempt), and the caller's catch absorbs
that failure into the unavailable record. -/
theorem retry_exhaustion (errs : Nat → String) (legacyKey : Option String)
    (pool : KeyPoolState) (now : Int) :
    (analyzeWithGeminiRun legacyKey pool (fun i => Except.error (errs i))).attempts = 3 ∧
    (analyzeWithGeminiRun legacyKey pool (fun i => Except.error (errs i))).delays =
      [1 * 1000, 2 * 1000] ∧
    (analyzeWithGeminiRun legacyKey pool (fun i => Except.error (errs i))).result =
      .error (apiFailMsg (errs 2)) ∧
    analyzeGrowthPhotoModel now
      (analyzeWithGeminiRun legacyKey pool (fun i => Except.error (errs i))).result =
      unavailableRecord now := by
  have htrace : geminiRetryLoop (fun i => Except.error (errs i)) 0 "" =
      ⟨3, [1000, 2000], .error (apiFailMsg (errs 2))⟩ := by
    simp [geminiRetryLoop]
  refine ⟨?_, ?_, ?_, ?_⟩ <;>
    simp [analyzeWithGeminiRun, htrace, analyzeGrowthPhotoModel]

end CropPipeline
